import Mathlib

/-!
Verification of `diesel/src/connection/statement_cache/strategy.rs`.

Shallow embedding: the statement-cache strategies are modelled as pure
functions.  The `HashMap<StatementCacheKey<DB>, Statement>` store is
modelled as an association list over an abstract key type `K` with
decidable equality (the source only requires `Hash + Eq`); statement
handles are an abstract type `S`, errors an abstract type `E`.  The
external collaborators are parameters: `render : K → Except E String`
models `StatementCacheKey::sql(source, backend)` and
`prepare : String → PrepareForCache → Except E S` models the prepare
closure.  Each `get` additionally returns a `GetTrace` recording which
keys were rendered and which `(sql, flag)` pairs the prepare closure was
invoked with, so that claims of the form "prepare is never invoked on a
hit" are statable.
-/

namespace StmtCache

/-- Modelled from the spec: `PreparationSignal`, the two-valued flag passed
to the prepare operation (`PrepareForCache` in the source's imports, which
are outside the given source file). -/
inductive PrepareForCache where
  | Yes : PrepareForCache
  | No : PrepareForCache
  deriving DecidableEq, Repr

/-- Modelled from the spec: `CacheEntryResult` / `MaybeCached`, a prepared
statement handle tagged as reusable (`Cached`) or single-use
(`CannotCache`). -/
inductive MaybeCached (S : Type) where
  | Cached : S → MaybeCached S
  | CannotCache : S → MaybeCached S
  deriving DecidableEq, Repr

/-- Modelled from the spec: the caching mode reported by `strategy()`,
`CacheMode ∈ {Unbounded, Disabled}`. -/
inductive CacheSize where
  | Unbounded : CacheSize
  | Disabled : CacheSize
  deriving DecidableEq, Repr

/-- Trace of the external calls a single `get` performed: the keys it
rendered to SQL and the `(sql, flag)` arguments of each invocation of the
prepare closure, in order. -/
structure GetTrace (K : Type) where
  renders : List K
  prepares : List (String × PrepareForCache)
  deriving DecidableEq, Repr

section Strategies

variable {K S E : Type} [DecidableEq K]

/-- Lookup in the association-list model of the `HashMap` store. -/
def lookupStore : List (K × S) → K → Option S
  | [], _ => none
  | (k, s) :: rest, key => if k = key then some s else lookupStore rest key

/-- The store of `WithCacheStrategy`: `cache: HashMap<StatementCacheKey<DB>, Statement>`,
created empty by `Default::default()`. -/
def WithCacheStrategy.default : List (K × S) := []

/-- Embeds `WithCacheStrategy::get` (strategy.rs lines 59-75): resolves `key` via
the entry API.  Occupied entry: return `Cached` of the existing value,
touching neither `render` nor `prepare`.  Vacant entry: render the key,
prepare with `PrepareForCache::Yes`, insert, return `Cached` of the
inserted value; `?` propagates errors before any insertion.  Returns the
(possibly updated) store alongside the result, plus the call trace. -/
def WithCacheStrategy.get (store : List (K × S)) (key : K)
    (render : K → Except E String)
    (prepare : String → PrepareForCache → Except E S) :
    (Except E (MaybeCached S) × List (K × S)) × GetTrace K :=
  match lookupStore store key with
  | some s => ((Except.ok (MaybeCached.Cached s), store), ⟨[], []⟩)
  | none =>
    match render key with
    | Except.error e => ((Except.error e, store), ⟨[key], []⟩)
    | Except.ok sql =>
      match prepare sql PrepareForCache.Yes with
      | Except.error e => ((Except.error e, store), ⟨[key], [(sql, PrepareForCache.Yes)]⟩)
      | Except.ok st =>
          ((Except.ok (MaybeCached.Cached st), (key, st) :: store),
           ⟨[key], [(sql, PrepareForCache.Yes)]⟩)

/-- Embeds `WithCacheStrategy::strategy` (strategy.rs lines 77-79): always
`CacheSize::Unbounded`, ignoring the instance's store. -/
def WithCacheStrategy.strategy (_store : List (K × S)) : CacheSize :=
  CacheSize.Unbounded

/-- Embeds `WithoutCacheStrategy::get` (strategy.rs lines 94-106): always renders
the key, always prepares with `PrepareForCache::No`, wraps the owned
handle in `CannotCache`.  The struct has no fields, so there is no store
parameter. -/
def WithoutCacheStrategy.get (key : K)
    (render : K → Except E String)
    (prepare : String → PrepareForCache → Except E S) :
    Except E (MaybeCached S) × GetTrace K :=
  match render key with
  | Except.error e => (Except.error e, ⟨[key], []⟩)
  | Except.ok sql =>
    match prepare sql PrepareForCache.No with
    | Except.error e => (Except.error e, ⟨[key], [(sql, PrepareForCache.No)]⟩)
    | Except.ok st =>
        (Except.ok (MaybeCached.CannotCache st), ⟨[key], [(sql, PrepareForCache.No)]⟩)

/-- Embeds `WithoutCacheStrategy::strategy` (strategy.rs lines 108-110): always
`CacheSize::Disabled`. -/
def WithoutCacheStrategy.strategy : CacheSize :=
  CacheSize.Disabled

/-- Run a sequence of `WithCacheStrategy::get` calls, threading the store
and collecting each call's result and trace. -/
def runWithCache (render : K → Except E String)
    (prepare : String → PrepareForCache → Except E S) :
    List (K × S) → List K →
    List (Except E (MaybeCached S) × GetTrace K) × List (K × S)
  | store, [] => ([], store)
  | store, k :: ks =>
    let step := WithCacheStrategy.get store k render prepare
    let rest := runWithCache render prepare step.1.2 ks
    ((step.1.1, step.2) :: rest.1, rest.2)

/-- Run a sequence of `WithoutCacheStrategy::get` calls.  The strategy is
stateless, so the run is a plain map over the keys. -/
def runWithoutCache (render : K → Except E String)
    (prepare : String → PrepareForCache → Except E S) (keys : List K) :
    List (Except E (MaybeCached S) × GetTrace K) :=
  keys.map (fun k => WithoutCacheStrategy.get k render prepare)

end Strategies

/-- Embeds `CachingOutcome` (strategy.rs lines 155-163). -/
inductive CachingOutcome where
  | UseCached : CachingOutcome
  | Cache : CachingOutcome
  | DontCache : CachingOutcome
  deriving DecidableEq, Repr

/-- Embeds `CallInfo` (strategy.rs lines 166-172): the SQL text and caching
outcome recorded for one `get` call. -/
structure CallInfo where
  sql : String
  outcome : CachingOutcome
  deriving DecidableEq, Repr

/-- Embeds `IntrospectedCalls` (strategy.rs lines 175-179). -/
structure IntrospectedCalls where
  calls : List CallInfo
  deriving DecidableEq, Repr

/-- Embeds `IntrospectedCalls::count` (strategy.rs lines 183-188). -/
def IntrospectedCalls.count (c : IntrospectedCalls) (outcome : CachingOutcome) : Nat :=
  (c.calls.filter (fun info => info.outcome = outcome)).length

/-- Embeds `IntrospectedCalls::is_empty` (strategy.rs lines 190-192). -/
def IntrospectedCalls.isEmpty (c : IntrospectedCalls) : Bool :=
  c.calls.isEmpty

/-- Embeds `consume_statement_caching_calls` (strategy.rs lines 196-200): the
thread-local log `INTROSPECT_CACHING_STRATEGY` is modelled as an explicit
`List CallInfo` state.  `std::mem::take` returns all recorded calls and
leaves the log empty. -/
def consume_statement_caching_calls (log : List CallInfo) :
    IntrospectedCalls × List CallInfo :=
  (⟨log⟩, [])

/-- Embeds `IntrospectCachingStrategy::new` (strategy.rs lines 143-151): calls
`consume_statement_caching_calls()` to clear the log before wrapping.
Returns the log state after construction. -/
def IntrospectCachingStrategy.new (log : List CallInfo) : List CallInfo :=
  (consume_statement_caching_calls log).2

section Introspect

variable {K S E σ : Type} [DecidableEq K]

/-- The shape of an inner strategy's `get` as the observing wrapper sees
it: state in, `(result, state)` out, plus the trace of render/prepare
calls the inner performed (the wrapper's substituted closure observes
exactly the prepare entries of this trace). -/
def InnerGet (K S E σ : Type) : Type :=
  σ → K → (K → Except E String) → (String → PrepareForCache → Except E S) →
    (Except E (MaybeCached S) × σ) × GetTrace K

/-- Embeds `IntrospectCachingStrategy::get` (strategy.rs lines 210-236).  First
renders the key itself (`?` propagates a rendering error before the inner
strategy is consulted).  Then delegates to the inner `get` with a
substituted prepare closure; the mutable `outcome` variable is overwritten
on each prepare invocation, so its final value is determined by the last
entry of the inner call's prepare trace (`None`, i.e. `UseCached`, when
the closure was never invoked).  On inner error the `?` on the inner call
returns before anything is pushed; on success exactly one `CallInfo` is
pushed onto the log. -/
def IntrospectCachingStrategy.get (innerGet : InnerGet K S E σ)
    (st : σ) (log : List CallInfo) (key : K)
    (render : K → Except E String)
    (prepare : String → PrepareForCache → Except E S) :
    (Except E (MaybeCached S) × σ × List CallInfo) × GetTrace K :=
  match render key with
  | Except.error e => ((Except.error e, st, log), ⟨[key], []⟩)
  | Except.ok sql =>
    match innerGet st key render prepare with
    | ((Except.error e, st'), tr) =>
        ((Except.error e, st', log), ⟨key :: tr.renders, tr.prepares⟩)
    | ((Except.ok r, st'), tr) =>
        let outcome : Option CachingOutcome :=
          match tr.prepares.getLast? with
          | some (_, PrepareForCache.Yes) => some CachingOutcome.Cache
          | some (_, PrepareForCache.No) => some CachingOutcome.DontCache
          | none => none
        ((Except.ok r, st',
          log ++ [⟨sql, outcome.getD CachingOutcome.UseCached⟩]),
         ⟨key :: tr.renders, tr.prepares⟩)

/-- Embeds `IntrospectCachingStrategy::strategy` (strategy.rs lines 238-240):
delegates to the inner strategy's `strategy()`. -/
def IntrospectCachingStrategy.strategy (innerStrategy : CacheSize) : CacheSize :=
  innerStrategy

/-- Run a sequence of `IntrospectCachingStrategy::get` calls over a
`WithCacheStrategy` inner, threading the inner store and the log. -/
def runIntrospectWithCache (render : K → Except E String)
    (prepare : String → PrepareForCache → Except E S) :
    List (K × S) → List CallInfo → List K →
    List (Except E (MaybeCached S) × GetTrace K) × List (K × S) × List CallInfo
  | store, log, [] => ([], store, log)
  | store, log, k :: ks =>
    let step := IntrospectCachingStrategy.get
        (fun st key r p => WithCacheStrategy.get st key r p) store log k render prepare
    let rest := runIntrospectWithCache render prepare step.1.2.1 step.1.2.2 ks
    ((step.1.1, step.2) :: rest.1, rest.2)

end Introspect

/-- Embeds `Result::is_ok`. -/
def exceptIsOk {E A : Type} : Except E A → Bool
  | Except.ok _ => true
  | Except.error _ => false

/-- Concrete SQL renderer used to exercise the strategies on closed inputs. -/
def render0 : String → Except String String :=
  fun k => Except.ok ("SQL:" ++ k)

/-- Concrete prepare operation used to exercise the strategies on closed inputs. -/
def prepare0 : String → PrepareForCache → Except String Nat :=
  fun sql _ => Except.ok sql.length

/-- Concrete always-failing SQL renderer. -/
def renderFail : String → Except String String :=
  fun _ => Except.error "render error"

/-- Concrete always-failing prepare operation. -/
def prepareFail : String → PrepareForCache → Except String Nat :=
  fun _ _ => Except.error "prepare error"

/-- Decidable equality for `Except`, used to evaluate closed results. -/
instance exceptDecEq {E A : Type} [DecidableEq E] [DecidableEq A] :
    DecidableEq (Except E A) := fun x y =>
  match x, y with
  | Except.ok a, Except.ok b =>
      if h : a = b then Decidable.isTrue (congrArg Except.ok h)
      else Decidable.isFalse (fun hc => h (Except.ok.inj hc))
  | Except.error a, Except.error b =>
      if h : a = b then Decidable.isTrue (congrArg Except.error h)
      else Decidable.isFalse (fun hc => h (Except.error.inj hc))
  | Except.ok _, Except.error _ => Decidable.isFalse (fun hc => Except.noConfusion hc)
  | Except.error _, Except.ok _ => Decidable.isFalse (fun hc => Except.noConfusion hc)

section Lemmas

variable {K S E : Type} [DecidableEq K]

theorem exceptIsOk_iff {A : Type} (x : Except E A) :
    exceptIsOk x = true ↔ ∃ a, x = Except.ok a := by
  cases x <;> simp [exceptIsOk]

theorem wcGet_hit (store : List (K × S)) (key : K) (s : S)
    (render : K → Except E String) (prepare : String → PrepareForCache → Except E S)
    (h : lookupStore store key = some s) :
    WithCacheStrategy.get store key render prepare
      = ((Except.ok (MaybeCached.Cached s), store), ⟨[], []⟩) := by
  unfold WithCacheStrategy.get
  rw [h]

theorem wcGet_miss_renderError (store : List (K × S)) (key : K) (e : E)
    (render : K → Except E String) (prepare : String → PrepareForCache → Except E S)
    (h1 : lookupStore store key = none) (h2 : render key = Except.error e) :
    WithCacheStrategy.get store key render prepare
      = ((Except.error e, store), ⟨[key], []⟩) := by
  unfold WithCacheStrategy.get
  rw [h1, h2]

theorem wcGet_miss_prepareError (store : List (K × S)) (key : K) (sql : String) (e : E)
    (render : K → Except E String) (prepare : String → PrepareForCache → Except E S)
    (h1 : lookupStore store key = none) (h2 : render key = Except.ok sql)
    (h3 : prepare sql PrepareForCache.Yes = Except.error e) :
    WithCacheStrategy.get store key render prepare
      = ((Except.error e, store), ⟨[key], [(sql, PrepareForCache.Yes)]⟩) := by
  unfold WithCacheStrategy.get
  simp [h1, h2, h3]

theorem wcGet_miss_ok (store : List (K × S)) (key : K) (sql : String) (st : S)
    (render : K → Except E String) (prepare : String → PrepareForCache → Except E S)
    (h1 : lookupStore store key = none) (h2 : render key = Except.ok sql)
    (h3 : prepare sql PrepareForCache.Yes = Except.ok st) :
    WithCacheStrategy.get store key render prepare
      = ((Except.ok (MaybeCached.Cached st), (key, st) :: store),
         ⟨[key], [(sql, PrepareForCache.Yes)]⟩) := by
  unfold WithCacheStrategy.get
  simp [h1, h2, h3]

theorem wcGet_miss_ok_exists (store : List (K × S)) (key : K)
    (render : K → Except E String) (prepare : String → PrepareForCache → Except E S)
    (h1 : lookupStore store key = none)
    (hok : exceptIsOk (WithCacheStrategy.get store key render prepare).1.1 = true) :
    ∃ sql st, render key = Except.ok sql
      ∧ prepare sql PrepareForCache.Yes = Except.ok st
      ∧ WithCacheStrategy.get store key render prepare
          = ((Except.ok (MaybeCached.Cached st), (key, st) :: store),
             ⟨[key], [(sql, PrepareForCache.Yes)]⟩) := by
  cases hre : render key with
  | error e =>
      rw [wcGet_miss_renderError store key e render prepare h1 hre] at hok
      simp [exceptIsOk] at hok
  | ok sql =>
      cases hp : prepare sql PrepareForCache.Yes with
      | error e =>
          rw [wcGet_miss_prepareError store key sql e render prepare h1 hre hp] at hok
          simp [exceptIsOk] at hok
      | ok st =>
          exact ⟨sql, st, rfl, hp, wcGet_miss_ok store key sql st render prepare h1 hre hp⟩

theorem lookupStore_cons_isSome (a : K) (st : S) (store : List (K × S)) (k : K) :
    ((lookupStore ((a, st) :: store) k).isSome = true)
      ↔ (a = k ∨ (lookupStore store k).isSome = true) := by
  by_cases h : a = k <;> simp [lookupStore, h]

end Lemmas

/-- C1: for every key already present in `WithCacheStrategy`'s store,
`get` returns `Cached` with the existing handle and leaves the store
unchanged; neither SQL rendering nor the prepare operation is invoked on
that call — the call trace is empty and the result does not depend on the
`render` or `prepare` collaborators at all. -/
theorem withCache_get_hit_spec {K S E : Type} [DecidableEq K]
    (store : List (K × S)) (key : K) (s : S)
    (render : K → Except E String) (prepare : String → PrepareForCache → Except E S)
    (h : lookupStore store key = some s) :
    WithCacheStrategy.get store key render prepare
      = ((Except.ok (MaybeCached.Cached s), store), ⟨[], []⟩)
    ∧ ∀ (render' : K → Except E String) (prepare' : String → PrepareForCache → Except E S),
        WithCacheStrategy.get store key render prepare
          = WithCacheStrategy.get store key render' prepare' := by
  refine ⟨wcGet_hit store key s render prepare h, ?_⟩
  intro render' prepare'
  rw [wcGet_hit store key s render prepare h, wcGet_hit store key s render' prepare' h]

/-- Witness for C1, at a concrete one-entry store. -/
theorem withCache_get_hit_spec_witness :
    WithCacheStrategy.get [("k", (7 : Nat))] "k" render0 prepare0
      = ((Except.ok (MaybeCached.Cached 7), [("k", (7 : Nat))]), ⟨[], []⟩) :=
  (withCache_get_hit_spec [("k", (7 : Nat))] "k" 7 render0 prepare0 (by decide)).1

/-- C2: for every key not present in the store, `WithCacheStrategy::get`
renders the key to SQL, invokes prepare with that SQL and
`PrepareForCache::Yes`, and on success inserts the handle under the key
and returns `Cached` of the just-inserted handle (looking up the key in
the updated store yields exactly that handle). -/
theorem withCache_get_miss_spec {K S E : Type} [DecidableEq K]
    (store : List (K × S)) (key : K) (sql : String) (st : S)
    (render : K → Except E String) (prepare : String → PrepareForCache → Except E S)
    (hmiss : lookupStore store key = none)
    (hr : render key = Except.ok sql)
    (hp : prepare sql PrepareForCache.Yes = Except.ok st) :
    WithCacheStrategy.get store key render prepare
      = ((Except.ok (MaybeCached.Cached st), (key, st) :: store),
         ⟨[key], [(sql, PrepareForCache.Yes)]⟩)
    ∧ lookupStore ((key, st) :: store) key = some st := by
  refine ⟨wcGet_miss_ok store key sql st render prepare hmiss hr hp, ?_⟩
  simp [lookupStore]

/-- Witness for C2, preparing key "k" against the empty store. -/
theorem withCache_get_miss_spec_witness :
    WithCacheStrategy.get ([] : List (String × Nat)) "k" render0 prepare0
      = ((Except.ok (MaybeCached.Cached 5), [("k", 5)]),
         ⟨["k"], [("SQL:k", PrepareForCache.Yes)]⟩)
    ∧ lookupStore [("k", (5 : Nat))] "k" = some 5 :=
  withCache_get_miss_spec [] "k" "SQL:k" 5 render0 prepare0 rfl rfl rfl

/-- C3: whenever `WithCacheStrategy::get` returns an error (from SQL
rendering or from prepare), the store after the call equals the store
before the call and holds no entry for the key, the error value is
propagated unchanged, and a subsequent call with the same key renders the
key again (attempts preparation anew). -/
theorem withCache_get_error_spec {K S E : Type} [DecidableEq K]
    (store : List (K × S)) (key : K)
    (render : K → Except E String) (prepare : String → PrepareForCache → Except E S) :
    (∀ (e : E) (store' : List (K × S)) (tr : GetTrace K),
        WithCacheStrategy.get store key render prepare = ((Except.error e, store'), tr) →
        store' = store ∧ lookupStore store' key = none)
    ∧ (∀ e : E, lookupStore store key = none → render key = Except.error e →
        WithCacheStrategy.get store key render prepare
          = ((Except.error e, store), ⟨[key], []⟩))
    ∧ (∀ (sql : String) (e : E), lookupStore store key = none →
        render key = Except.ok sql →
        prepare sql PrepareForCache.Yes = Except.error e →
        WithCacheStrategy.get store key render prepare
          = ((Except.error e, store), ⟨[key], [(sql, PrepareForCache.Yes)]⟩))
    ∧ (∀ (e : E) (store' : List (K × S)) (tr : GetTrace K),
        WithCacheStrategy.get store key render prepare = ((Except.error e, store'), tr) →
        (WithCacheStrategy.get store' key render prepare).2.renders = [key]) := by
  have herr : ∀ (e : E) (store' : List (K × S)) (tr : GetTrace K),
      WithCacheStrategy.get store key render prepare = ((Except.error e, store'), tr) →
      store' = store ∧ lookupStore store key = none := by
    intro e store' tr h
    cases hl : lookupStore store key with
    | some s =>
        rw [wcGet_hit store key s render prepare hl] at h
        simp at h
    | none =>
        refine ⟨?_, rfl⟩
        cases hre : render key with
        | error e2 =>
            rw [wcGet_miss_renderError store key e2 render prepare hl hre] at h
            simp at h
            exact h.1.2.symm
        | ok sql =>
            cases hp : prepare sql PrepareForCache.Yes with
            | error e2 =>
                rw [wcGet_miss_prepareError store key sql e2 render prepare hl hre hp] at h
                simp at h
                exact h.1.2.symm
            | ok st =>
                rw [wcGet_miss_ok store key sql st render prepare hl hre hp] at h
                simp at h
  have hmissRenders : ∀ store2 : List (K × S), lookupStore store2 key = none →
      (WithCacheStrategy.get store2 key render prepare).2.renders = [key] := by
    intro store2 hl
    cases hre : render key with
    | error e2 => rw [wcGet_miss_renderError store2 key e2 render prepare hl hre]
    | ok sql =>
        cases hp : prepare sql PrepareForCache.Yes with
        | error e2 => rw [wcGet_miss_prepareError store2 key sql e2 render prepare hl hre hp]
        | ok st => rw [wcGet_miss_ok store2 key sql st render prepare hl hre hp]
  refine ⟨?_, ?_, ?_, ?_⟩
  · intro e store' tr h
    obtain ⟨heq, hl⟩ := herr e store' tr h
    exact ⟨heq, heq ▸ hl⟩
  · intro e hl hre
    exact wcGet_miss_renderError store key e render prepare hl hre
  · intro sql e hl hre hp
    exact wcGet_miss_prepareError store key sql e render prepare hl hre hp
  · intro e store' tr h
    obtain ⟨heq, hl⟩ := herr e store' tr h
    exact hmissRenders store' (heq ▸ hl)

/-- Invariant for runs of `WithCacheStrategy::get`: in an all-successful
run, the i-th call invokes prepare exactly once when its key is neither in
the initial store nor among the keys of the earlier calls, and otherwise
is a pure hit: no prepare invocation and a `Cached` result. -/
theorem runWithCache_spec {K S E : Type} [DecidableEq K]
    (render : K → Except E String) (prepare : String → PrepareForCache → Except E S) :
    ∀ (keys : List K) (store : List (K × S)),
      (∀ p ∈ (runWithCache render prepare store keys).1, exceptIsOk p.1 = true) →
      ∀ (i : Nat) (k : K) (r : Except E (MaybeCached S) × GetTrace K),
        keys[i]? = some k →
        ((runWithCache render prepare store keys).1)[i]? = some r →
        (((lookupStore store k).isSome = true ∨ k ∈ keys.take i) →
            r.2.prepares = [] ∧ ∃ s, r.1 = Except.ok (MaybeCached.Cached s))
        ∧ (¬((lookupStore store k).isSome = true ∨ k ∈ keys.take i) →
            (r.2.prepares).length = 1) := by
  intro keys
  induction keys with
  | nil =>
      intro store hsucc i k r hk hr
      simp at hk
  | cons a ks ih =>
      intro store hsucc i k r hk hr
      have hrunEq : (runWithCache render prepare store (a :: ks)).1
          = ((WithCacheStrategy.get store a render prepare).1.1,
             (WithCacheStrategy.get store a render prepare).2)
            :: (runWithCache render prepare
                  (WithCacheStrategy.get store a render prepare).1.2 ks).1 := rfl
      have hheadOk : exceptIsOk (WithCacheStrategy.get store a render prepare).1.1 = true :=
        hsucc ((WithCacheStrategy.get store a render prepare).1.1,
               (WithCacheStrategy.get store a render prepare).2)
          (by rw [hrunEq]; exact List.mem_cons_self _ _)
      have htailSucc : ∀ p ∈ (runWithCache render prepare
            (WithCacheStrategy.get store a render prepare).1.2 ks).1,
          exceptIsOk p.1 = true := by
        intro p hp
        exact hsucc p (by rw [hrunEq]; exact List.mem_cons_of_mem _ hp)
      cases hl : lookupStore store a with
      | some s =>
          have hget := wcGet_hit store a s render prepare hl
          cases i with
          | zero =>
              simp at hk
              subst hk
              rw [hrunEq, hget] at hr
              simp at hr
              constructor
              · intro _
                rw [← hr]
                exact ⟨rfl, s, rfl⟩
              · intro hnot
                exact absurd (Or.inl (by rw [hl]; rfl)) hnot
          | succ i =>
              simp only [List.getElem?_cons_succ] at hk
              rw [hrunEq] at hr
              simp only [List.getElem?_cons_succ] at hr
              rw [hget] at hr htailSucc
              have hres := ih store htailSucc i k r hk hr
              have hka : k = a → (lookupStore store k).isSome = true := by
                intro h
                rw [h, hl]
                rfl
              have hcond : ((lookupStore store k).isSome = true ∨ k ∈ (a :: ks).take (i + 1))
                  ↔ ((lookupStore store k).isSome = true ∨ k ∈ ks.take i) := by
                rw [List.take_succ_cons, List.mem_cons]
                constructor
                · rintro (h | h | h)
                  · exact Or.inl h
                  · exact Or.inl (hka h)
                  · exact Or.inr h
                · rintro (h | h)
                  · exact Or.inl h
                  · exact Or.inr (Or.inr h)
              exact ⟨fun h => hres.1 (hcond.mp h), fun h => hres.2 (fun h2 => h (hcond.mpr h2))⟩
      | none =>
          obtain ⟨sql, st, hre, hp, hget⟩ :=
            wcGet_miss_ok_exists store a render prepare hl hheadOk
          cases i with
          | zero =>
              simp at hk
              subst hk
              rw [hrunEq, hget] at hr
              simp at hr
              constructor
              · intro hcontra
                rcases hcontra with h | h
                · rw [hl] at h
                  cases h
                · simp at h
              · intro _
                rw [← hr]
                rfl
          | succ i =>
              simp only [List.getElem?_cons_succ] at hk
              rw [hrunEq] at hr
              simp only [List.getElem?_cons_succ] at hr
              rw [hget] at hr htailSucc
              have hres := ih ((a, st) :: store) htailSucc i k r hk hr
              have hcond : ((lookupStore store k).isSome = true ∨ k ∈ (a :: ks).take (i + 1))
                  ↔ ((lookupStore ((a, st) :: store) k).isSome = true ∨ k ∈ ks.take i) := by
                rw [List.take_succ_cons, List.mem_cons, lookupStore_cons_isSome]
                constructor
                · rintro (h | h | h)
                  · exact Or.inl (Or.inr h)
                  · exact Or.inl (Or.inl h.symm)
                  · exact Or.inr h
                · rintro ((h | h) | h)
                  · exact Or.inr (Or.inl h.symm)
                  · exact Or.inl h
                  · exact Or.inr (Or.inr h)
              exact ⟨fun h => hres.1 (hcond.mp h), fun h => hres.2 (fun h2 => h (hcond.mpr h2))⟩

/-- C4: in any all-successful sequence of `WithCacheStrategy::get` calls
starting from the empty store, prepare is invoked at most once per key:
the call at a key's first occurrence invokes prepare exactly once, and
every call at a later occurrence of an equal key invokes prepare zero
times and returns `Cached`. -/
theorem withCache_at_most_one_prepare {K S E : Type} [DecidableEq K]
    (render : K → Except E String) (prepare : String → PrepareForCache → Except E S)
    (keys : List K)
    (hsucc : ∀ p ∈ (runWithCache render prepare ([] : List (K × S)) keys).1,
        exceptIsOk p.1 = true) :
    ∀ (i : Nat) (k : K) (r : Except E (MaybeCached S) × GetTrace K),
      keys[i]? = some k →
      ((runWithCache render prepare ([] : List (K × S)) keys).1)[i]? = some r →
      (k ∈ keys.take i →
          r.2.prepares = [] ∧ ∃ s, r.1 = Except.ok (MaybeCached.Cached s))
      ∧ (k ∉ keys.take i → (r.2.prepares).length = 1) := by
  intro i k r hk hr
  have h := runWithCache_spec render prepare keys [] hsucc i k r hk hr
  constructor
  · intro hmem
    exact h.1 (Or.inr hmem)
  · intro hmem
    apply h.2
    rintro (hcontra | hcontra)
    · simp [lookupStore] at hcontra
    · exact hmem hcontra

/-- Witness for C4: two calls with the key "a" from the empty store; the
second call performs no prepare invocation and returns `Cached`. -/
theorem withCache_at_most_one_prepare_witness :
    ((runWithCache render0 prepare0 ([] : List (String × Nat)) ["a", "a"]).1)[1]?
        = some (Except.ok (MaybeCached.Cached 5), ⟨[], []⟩)
    ∧ ((Except.ok (MaybeCached.Cached 5) : Except String (MaybeCached Nat)),
        (⟨[], []⟩ : GetTrace String)).2.prepares = [] := by
  refine ⟨by decide, ?_⟩
  exact ((withCache_at_most_one_prepare render0 prepare0 ["a", "a"] (by decide) 1 "a"
      (Except.ok (MaybeCached.Cached 5), ⟨[], []⟩) (by decide) (by decide)).1 (by decide)).1

/-- C5: every call to `WithoutCacheStrategy::get` renders the key and
(once rendering succeeded) invokes prepare exactly once with
`PrepareForCache::No` whatever prepare returns; on success it returns
`CannotCache` wrapping the owned handle; and it is oblivious to history:
the strategy keeps no store, so the i-th result of a run over any key
sequence depends only on the i-th key. -/
theorem withoutCache_get_spec {K S E : Type} [DecidableEq K]
    (key : K) (sql : String)
    (render : K → Except E String) (prepare : String → PrepareForCache → Except E S)
    (hr : render key = Except.ok sql) :
    (WithoutCacheStrategy.get key render prepare).2
        = ⟨[key], [(sql, PrepareForCache.No)]⟩
    ∧ (∀ st : S, prepare sql PrepareForCache.No = Except.ok st →
        WithoutCacheStrategy.get key render prepare
          = (Except.ok (MaybeCached.CannotCache st), ⟨[key], [(sql, PrepareForCache.No)]⟩))
    ∧ (∀ (keys : List K) (i : Nat),
        (runWithoutCache render prepare keys)[i]?
          = (keys[i]?).map (fun k => WithoutCacheStrategy.get k render prepare)) := by
  refine ⟨?_, ?_, ?_⟩
  · unfold WithoutCacheStrategy.get
    rw [hr]
    cases hp : prepare sql PrepareForCache.No <;> simp [hp]
  · intro st hp
    unfold WithoutCacheStrategy.get
    rw [hr]
    simp [hp]
  · intro keys i
    simp [runWithoutCache, List.getElem?_map]

/-- Witness for C5 at a concrete key. -/
theorem withoutCache_get_spec_witness :
    WithoutCacheStrategy.get "k" render0 prepare0
      = (Except.ok (MaybeCached.CannotCache 5), ⟨["k"], [("SQL:k", PrepareForCache.No)]⟩) :=
  (withoutCache_get_spec "k" "SQL:k" render0 prepare0 rfl).2.1 5 rfl

/-- C6: the function `strategy()` is pure and constant per instance independent of call
history: always `Unbounded` for `WithCacheStrategy` (whatever its store,
including any store produced by a run of `get` calls), always `Disabled`
for `WithoutCacheStrategy`, and the observing wrapper returns exactly the
inner strategy's value. -/
theorem strategy_mode_spec {K S E : Type} [DecidableEq K] :
    (∀ store : List (K × S), WithCacheStrategy.strategy store = CacheSize.Unbounded)
    ∧ WithoutCacheStrategy.strategy = CacheSize.Disabled
    ∧ (∀ c : CacheSize, IntrospectCachingStrategy.strategy c = c)
    ∧ (∀ (render : K → Except E String) (prepare : String → PrepareForCache → Except E S)
        (store : List (K × S)) (keys : List K),
        WithCacheStrategy.strategy (runWithCache render prepare store keys).2
          = CacheSize.Unbounded) :=
  ⟨fun _ => rfl, rfl, fun _ => rfl, fun _ _ _ _ => rfl⟩

/-- C9: draining takes and clears all records, returned in append order;
draining an empty log yields an empty result (not an error — the
operation is total); a second drain right after a drain returns an empty
list; constructing a new observing wrapper also clears the log. -/
theorem consume_drain_spec (log : List CallInfo) :
    consume_statement_caching_calls log = (⟨log⟩, [])
    ∧ consume_statement_caching_calls ([] : List CallInfo) = (⟨[]⟩, [])
    ∧ consume_statement_caching_calls (consume_statement_caching_calls log).2 = (⟨[]⟩, [])
    ∧ IntrospectCachingStrategy.new log = [] :=
  ⟨rfl, rfl, rfl, rfl⟩

/-- Witness for C3: a failing prepare against the empty store propagates
the error, leaves the store empty, and the retry renders the key again. -/
theorem withCache_get_error_spec_witness :
    (WithCacheStrategy.get ([] : List (String × Nat)) "k" render0 prepareFail
      = ((Except.error "prepare error", []), ⟨["k"], [("SQL:k", PrepareForCache.Yes)]⟩))
    ∧ (WithCacheStrategy.get ([] : List (String × Nat)) "k" render0 prepareFail).2.renders
        = ["k"] := by
  have h1 := (withCache_get_error_spec ([] : List (String × Nat)) "k" render0 prepareFail).2.2.1
      "SQL:k" "prepare error" rfl rfl rfl
  have h2 := (withCache_get_error_spec ([] : List (String × Nat)) "k" render0 prepareFail).2.2.2
      "prepare error" [] ⟨["k"], [("SQL:k", PrepareForCache.Yes)]⟩ h1
  exact ⟨h1, h2⟩

/-- C7: on every successful call the observing wrapper appends exactly one
record `{sql, outcome}` to the log: `UseCached` when the inner strategy
never invoked the prepare closure, `Cache` when the (last) invocation used
`PrepareForCache::Yes`, `DontCache` when it used `PrepareForCache::No`;
and concretely, wrapping `WithCacheStrategy` and calling with keys
k1, k1, k2 (all prepares succeeding) drains to exactly three records with
outcomes [Cache, UseCached, Cache] and SQL texts matching each key's
rendering. -/
theorem introspect_records_spec {K S E σ : Type} [DecidableEq K]
    (innerGet : InnerGet K S E σ) (st : σ) (log : List CallInfo) (key : K)
    (render : K → Except E String) (prepare : String → PrepareForCache → Except E S)
    (sql : String) (r : MaybeCached S) (st' : σ) (tr : GetTrace K)
    (hr : render key = Except.ok sql)
    (hin : innerGet st key render prepare = ((Except.ok r, st'), tr)) :
    ((tr.prepares.getLast? = none →
        IntrospectCachingStrategy.get innerGet st log key render prepare
          = ((Except.ok r, st', log ++ [⟨sql, CachingOutcome.UseCached⟩]),
             ⟨key :: tr.renders, tr.prepares⟩))
      ∧ (∀ s' : String, tr.prepares.getLast? = some (s', PrepareForCache.Yes) →
          IntrospectCachingStrategy.get innerGet st log key render prepare
            = ((Except.ok r, st', log ++ [⟨sql, CachingOutcome.Cache⟩]),
               ⟨key :: tr.renders, tr.prepares⟩))
      ∧ (∀ s' : String, tr.prepares.getLast? = some (s', PrepareForCache.No) →
          IntrospectCachingStrategy.get innerGet st log key render prepare
            = ((Except.ok r, st', log ++ [⟨sql, CachingOutcome.DontCache⟩]),
               ⟨key :: tr.renders, tr.prepares⟩)))
    ∧ consume_statement_caching_calls
        (runIntrospectWithCache render0 prepare0 [] [] ["k1", "k1", "k2"]).2.2
        = (⟨[⟨"SQL:k1", CachingOutcome.Cache⟩, ⟨"SQL:k1", CachingOutcome.UseCached⟩,
             ⟨"SQL:k2", CachingOutcome.Cache⟩]⟩, []) := by
  refine ⟨⟨?_, ?_, ?_⟩, ?_⟩
  · intro h
    simp [IntrospectCachingStrategy.get, hr, hin, h]
  · intro s' h
    simp [IntrospectCachingStrategy.get, hr, hin, h]
  · intro s' h
    simp [IntrospectCachingStrategy.get, hr, hin, h]
  · decide

/-- Witness for C7: the wrapper over `WithCacheStrategy` records a `Cache`
outcome for a successful first-time preparation. -/
theorem introspect_records_spec_witness :
    IntrospectCachingStrategy.get
        (fun st2 k r p => WithCacheStrategy.get st2 k r p)
        ([] : List (String × Nat)) [] "k" render0 prepare0
      = ((Except.ok (MaybeCached.Cached 5), [("k", 5)],
          [⟨"SQL:k", CachingOutcome.Cache⟩]),
         ⟨["k", "k"], [("SQL:k", PrepareForCache.Yes)]⟩) :=
  (introspect_records_spec
      (fun st2 k r p => WithCacheStrategy.get st2 k r p)
      ([] : List (String × Nat)) [] "k" render0 prepare0 "SQL:k"
      (MaybeCached.Cached 5) [("k", 5)] ⟨["k"], [("SQL:k", PrepareForCache.Yes)]⟩
      rfl rfl).1.2.1 "SQL:k" rfl

/-- C8: if the inner strategy's `get` returns an error inside the
observing wrapper (including an error coming out of the prepare closure,
which the inner strategies propagate), the wrapper propagates the error
unchanged and appends no record to the observation log. -/
theorem introspect_inner_error_spec {K S E σ : Type} [DecidableEq K]
    (innerGet : InnerGet K S E σ) (st : σ) (log : List CallInfo) (key : K)
    (render : K → Except E String) (prepare : String → PrepareForCache → Except E S)
    (sql : String) (e : E) (st' : σ) (tr : GetTrace K)
    (hr : render key = Except.ok sql)
    (hin : innerGet st key render prepare = ((Except.error e, st'), tr)) :
    IntrospectCachingStrategy.get innerGet st log key render prepare
      = ((Except.error e, st', log), ⟨key :: tr.renders, tr.prepares⟩) := by
  simp [IntrospectCachingStrategy.get, hr, hin]

/-- Witness for C8: a failing prepare under the wrapper leaves the log
empty and propagates the error. -/
theorem introspect_inner_error_spec_witness :
    IntrospectCachingStrategy.get
        (fun st2 k r p => WithCacheStrategy.get st2 k r p)
        ([] : List (String × Nat)) [] "k" render0 prepareFail
      = ((Except.error "prepare error", [], []),
         ⟨["k", "k"], [("SQL:k", PrepareForCache.Yes)]⟩) :=
  introspect_inner_error_spec
    (fun st2 k r p => WithCacheStrategy.get st2 k r p)
    ([] : List (String × Nat)) [] "k" render0 prepareFail "SQL:k" "prepare error"
    [] ⟨["k"], [("SQL:k", PrepareForCache.Yes)]⟩ rfl rfl

/-- C10: the observing wrapper renders the key on every call, including
calls that hit in the inner cache; if that rendering fails the wrapper
returns the rendering error without delegating to the inner strategy at
all (any inner function yields the same outcome and the inner state is
untouched) and appends nothing to the log, so a wrapped
`WithCacheStrategy` is never mutated by a call whose rendering fails. -/
theorem introspect_renders_always_spec {K S E σ : Type} [DecidableEq K] :
    (∀ (innerGet : InnerGet K S E σ) (st : σ) (log : List CallInfo) (key : K)
        (render : K → Except E String) (prepare : String → PrepareForCache → Except E S)
        (e : E), render key = Except.error e →
        IntrospectCachingStrategy.get innerGet st log key render prepare
          = ((Except.error e, st, log), ⟨[key], []⟩))
    ∧ (∀ (store : List (K × S)) (log : List CallInfo) (key : K)
        (render : K → Except E String) (prepare : String → PrepareForCache → Except E S)
        (sql : String) (s : S),
        render key = Except.ok sql → lookupStore store key = some s →
        IntrospectCachingStrategy.get
            (fun st2 k r p => WithCacheStrategy.get st2 k r p)
            store log key render prepare
          = ((Except.ok (MaybeCached.Cached s), store,
              log ++ [⟨sql, CachingOutcome.UseCached⟩]), ⟨[key], []⟩)) := by
  constructor
  · intro innerGet st log key render prepare e hre
    simp [IntrospectCachingStrategy.get, hre]
  · intro store log key render prepare sql s hre hl
    simp [IntrospectCachingStrategy.get, hre, wcGet_hit store key s render prepare hl]

/-- Witness for C10: a failing rendering under the wrapper, and a rendered
SQL text recorded on an inner cache hit. -/
theorem introspect_renders_always_spec_witness :
    (IntrospectCachingStrategy.get
        (fun st2 k r p => WithCacheStrategy.get st2 k r p)
        ([] : List (String × Nat)) [] "k" renderFail prepare0
      = ((Except.error "render error", [], []), ⟨["k"], []⟩))
    ∧ (IntrospectCachingStrategy.get
        (fun st2 k r p => WithCacheStrategy.get st2 k r p)
        [("k", (7 : Nat))] [] "k" render0 prepare0
      = ((Except.ok (MaybeCached.Cached 7), [("k", (7 : Nat))],
          [⟨"SQL:k", CachingOutcome.UseCached⟩]), ⟨["k"], []⟩)) :=
  ⟨(@introspect_renders_always_spec String Nat String (List (String × Nat)) _).1
      (fun st2 k r p => WithCacheStrategy.get st2 k r p)
      ([] : List (String × Nat)) [] "k" renderFail prepare0 "render error" rfl,
   (@introspect_renders_always_spec String Nat String (List (String × Nat)) _).2
      [("k", (7 : Nat))] [] "k" render0 prepare0 "SQL:k" 7 rfl (by decide)⟩

end StmtCache
